import Mathlib

/-!
Shallow embedding of `src/main/index.ts` of the `@dpaskhin/unique` library.

The library wraps a value-producing operation `fn` into one that loops,
invoking `fn` until the stringified result is neither in the tracking
store nor in the (stringified) exclude list, subject to a retry-count
budget (`maxRetries`) and a wall-clock budget (`maxTime`).

Modelling decisions:
* The result of the i-th invocation of `fn` within one wrapped call is
  given by an oracle `fn : Nat → α` (the i-th value `fn.apply(null, args)`
  would produce).  Arguments are absorbed into the oracle.
* Successive readings of `Date.now()` during one wrapped call are given
  by an oracle `clock : Nat → Int`: `clock 0` is the `startTime` reading,
  `clock (i+1)` is the reading `now` taken at the top of loop iteration i.
* A JavaScript `Set` holding stringified values is a `Finset String`;
  `Set.prototype.add` is `insert`, `has` is `∈`, `size` is `card`.
* A thrown `Error` is the error branch of the call result.  The payload
  of the throw site (which ceiling with its configured value, store size,
  duration, iteration count) is kept structured in `GenError`, and
  `GenError.message` renders exactly the string `createErrorMessage`
  builds in the source.
* Store identity (fresh set per factory vs the `GLOBAL_STORE` singleton,
  `Object.assign` writing into the options object) is modelled by a heap
  of stores addressed by `StoreId`, with id 0 reserved for
  `GLOBAL_STORE`.
-/

namespace Unique

/-- Which budget ceiling was hit, with its configured value, mirroring the
code strings `'Exceeded maxTime: ' + maxTime` and
`'Exceeded maxTries: ' + maxRetries` of the two throw sites. -/
inductive ErrCeiling where
  | timeBudget (maxTime : Int)
  | retryBudget (maxRetries : Nat)
  deriving DecidableEq, Repr

/-- The `code` string the throw site passes to `createErrorMessage`. -/
def ErrCeiling.code : ErrCeiling → String
  | .timeBudget v => "Exceeded maxTime: " ++ toString v
  | .retryBudget v => "Exceeded maxTries: " ++ toString v

/-- Payload of a budget-exceeded throw: the arguments the source passes to
`createErrorMessage` at the throw site. -/
structure GenError where
  ceiling : ErrCeiling
  storeSize : Nat
  duration : Int
  iterations : Nat
  deriving DecidableEq, Repr

/-- `createErrorMessage` from the source, rendered as explicit string
concatenation of the template literal. -/
def createErrorMessage (code : String) (storeSize : Nat) (duration : Int)
    (currentIterations : Nat) : String :=
  "\n  " ++ code ++ " for uniqueness check.\n    \nFound " ++ toString storeSize
    ++ " unique entries before throwing error.\nretried: " ++ toString currentIterations
    ++ "\ntotal time: " ++ toString duration
    ++ "ms\n\nMay not be able to generate any more unique values with current settings.\nTry adjusting maxTime or maxRetries parameters."

/-- The message of the `Error` actually thrown for this payload. -/
def GenError.message (e : GenError) : String :=
  createErrorMessage e.ceiling.code e.storeSize e.duration e.iterations

/-- Discriminator for the two error kinds. -/
def ErrCeiling.isTime : ErrCeiling → Bool
  | .timeBudget _ => true
  | .retryBudget _ => false

/-- The configuration a factory invocation resolves from its options:
budgets, the exclude list already normalized by the stringifier
(`exclude = exclude.map(value => stringifier(value))`), and the
stringifier itself. -/
structure LoopCfg (α : Type) where
  maxRetries : Nat
  maxTime : Int
  excludeNorm : List String
  stringifier : α → String

/-- The `while (true)` loop of the wrapped operation, entered with
`currentIterations = i`.  Each iteration reads the clock, checks the time
budget, then the retry budget, then invokes `fn`, stringifies the result
and accepts it when it is neither in the store nor in the normalized
exclude list.  Returns the outcome together with the final store. -/
def genLoop {α : Type} (cfg : LoopCfg α) (fn : Nat → α) (clock : Nat → Int)
    (startTime : Int) (store : Finset String) (i : Nat) :
    Except GenError α × Finset String :=
  let now := clock (i + 1)
  let duration := now - startTime
  if cfg.maxTime ≤ duration then
    (.error ⟨.timeBudget cfg.maxTime, store.card, duration, i⟩, store)
  else if h2 : cfg.maxRetries ≤ i then
    (.error ⟨.retryBudget cfg.maxRetries, store.card, duration, i⟩, store)
  else
    let result := fn i
    let tmpResult := cfg.stringifier result
    if tmpResult ∉ store ∧ tmpResult ∉ cfg.excludeNorm then
      (.ok result, insert tmpResult store)
    else
      genLoop cfg fn clock startTime store (i + 1)
termination_by cfg.maxRetries - i
decreasing_by
  simp only [not_le] at h2
  omega

/-- One call of the wrapped operation: record `startTime = Date.now()`
(reading `clock 0`), start the loop with `currentIterations = 0`. -/
def genCall {α : Type} (cfg : LoopCfg α) (fn : Nat → α) (clock : Nat → Int)
    (store : Finset String) : Except GenError α × Finset String :=
  genLoop cfg fn clock (clock 0) store 0

/-- Identity of a mutable `Set` object: an index into the heap of stores. -/
abbrev StoreId := Nat

/-- The mutable `Set` objects alive in the process, addressed by `StoreId`. -/
structure Heap where
  stores : List (Finset String)
  deriving DecidableEq

/-- Read the store behind an id. -/
def Heap.read (h : Heap) (i : StoreId) : Finset String :=
  h.stores.getD i ∅

/-- Overwrite the store behind an id. -/
def Heap.write (h : Heap) (i : StoreId) (s : Finset String) : Heap :=
  ⟨h.stores.set i s⟩

/-- `new Set()`-like allocation: a fresh id bound to the given contents. -/
def Heap.alloc (h : Heap) (s : Finset String) : StoreId × Heap :=
  (h.stores.length, ⟨h.stores ++ [s]⟩)

/-- The process-wide `GLOBAL_STORE` singleton: the store allocated at
module load, which we place at heap index 0. -/
def GLOBAL_STORE : StoreId := 0

/-- The heap at process start: only `GLOBAL_STORE`, empty. -/
def initHeap : Heap := ⟨[∅]⟩

/-- The `IOptions` object: every field optional, `none` standing for a
JavaScript `undefined` field (which makes the destructuring default
kick in). -/
structure IOptions (α : Type) where
  store : Option StoreId := none
  maxRetries : Option Nat := none
  maxTime : Option Int := none
  exclude : Option (List α) := none
  stringifier : Option (α → String) := none

/-- Resolution of the non-store option defaults performed by
`uniqueFactory`, including the construction-time normalization
`exclude = exclude.map(value => stringifier(value))`.  `jsonStringify`
stands for the ambient `JSON.stringify` default. -/
def mkLoopCfg {α : Type} (opts : IOptions α) (jsonStringify : α → String) :
    LoopCfg α :=
  let strf := opts.stringifier.getD jsonStringify
  { maxRetries := opts.maxRetries.getD 50
    maxTime := opts.maxTime.getD 50
    excludeNorm := (opts.exclude.getD []).map strf
    stringifier := strf }

/-- `uniqueFactory(fn, options)`: resolve the options — the store default
being a newly created empty set — and return the wrapped operation,
represented by its resolved configuration and the id of the store it
closes over. -/
def uniqueFactory {α : Type} (opts : IOptions α) (jsonStringify : α → String)
    (h : Heap) : (LoopCfg α × StoreId) × Heap :=
  match opts.store with
  | some sid => ((mkLoopCfg opts jsonStringify, sid), h)
  | none =>
    let (sid, h1) := h.alloc ∅
    ((mkLoopCfg opts jsonStringify, sid), h1)

/-- Invoking the operation produced by `uniqueFactory`: run the retry
loop on the store the wrapped operation closes over, writing the final
store back to the heap. -/
def callWrapped {α : Type} (cfg : LoopCfg α) (sid : StoreId) (fn : Nat → α)
    (clock : Nat → Int) (h : Heap) : Except GenError α × Heap :=
  let (res, store1) := genCall cfg fn clock (h.read sid)
  (res, h.write sid store1)

/-- `unique(fn, args, options)` from the source:
`uniqueFactory(fn, Object.assign(options, { store: options.store || GLOBAL_STORE })).apply(null, args)`.
`Object.assign` mutates the caller's options object, so the mutated
object is also returned. -/
def uniqueRun {α : Type} (fn : Nat → α) (clock : Nat → Int)
    (opts : IOptions α) (jsonStringify : α → String) (h : Heap) :
    Except GenError α × Heap × IOptions α :=
  let optsMut := { opts with store := some (opts.store.getD GLOBAL_STORE) }
  let ((cfg, sid), h1) := uniqueFactory optsMut jsonStringify h
  let (res, h2) := callWrapped cfg sid fn clock h1
  (res, h2, optsMut)

/-- Modelled from the spec (§4.2 One-shot Invoker): behaves exactly as
the Generator Factory's produced operation invoked once with the given
arguments, except that when `options.store` is not supplied the shared
process-wide tracking set is used instead of a fresh private set.  Used
only as the specification side of the refinement claim about `unique`. -/
def uniqueSpec {α : Type} (fn : Nat → α) (clock : Nat → Int)
    (opts : IOptions α) (jsonStringify : α → String) (h : Heap) :
    Except GenError α × Heap :=
  let optsDefaulted :=
    match opts.store with
    | some _ => opts
    | none => { opts with store := some GLOBAL_STORE }
  let ((cfg, sid), h1) := uniqueFactory optsDefaulted jsonStringify h
  callWrapped cfg sid fn clock h1

/-- A sequence of calls to wrapped operations sharing one store: each
call brings its own invocation oracle and clock oracle, and the store is
threaded from call to call.  Stops at the first failing call. -/
def runCalls {α : Type} (cfg : LoopCfg α) :
    List ((Nat → α) × (Nat → Int)) → Finset String →
    Except GenError (List α) × Finset String
  | [], store => (.ok [], store)
  | c :: rest, store =>
    match genCall cfg c.1 c.2 store with
    | (.ok r, store1) =>
      match runCalls cfg rest store1 with
      | (.ok rs, store2) => (.ok (r :: rs), store2)
      | (.error e, store2) => (.error e, store2)
    | (.error e, store1) => (.error e, store1)

/-! ### Basic lemmas about the retry loop -/

/-- Shape of a successful loop run: the accepted candidate is a raw value
produced by some invocation of `fn`, its normalization was in neither the
store nor the exclude list, and it is the single insertion performed. -/
theorem genLoop_ok_spec {α : Type} (cfg : LoopCfg α) (fn : Nat → α) (clock : Nat → Int)
    (startTime : Int) :
    ∀ fuel i store r store', cfg.maxRetries - i = fuel →
      genLoop cfg fn clock startTime store i = (.ok r, store') →
      ∃ k, i ≤ k ∧ k < cfg.maxRetries ∧ r = fn k ∧
        cfg.stringifier r ∉ store ∧ cfg.stringifier r ∉ cfg.excludeNorm ∧
        store' = insert (cfg.stringifier r) store := by
  intro fuel
  induction fuel with
  | zero =>
    intro i store r store' hfuel h
    rw [genLoop] at h
    dsimp only at h
    split at h
    · exact absurd h (by simp)
    · split at h
      · exact absurd h (by simp)
      · omega
  | succ n IH =>
    intro i store r store' hfuel h
    rw [genLoop] at h
    dsimp only at h
    split at h
    · exact absurd h (by simp)
    · split at h
      · exact absurd h (by simp)
      · rename_i htime hretry
        split at h
        · rename_i hacc
          injection h with h1 h2
          injection h1 with h1
          refine ⟨i, le_refl i, by omega, h1.symm, ?_, ?_, ?_⟩
          · rw [← h1]; exact hacc.1
          · rw [← h1]; exact hacc.2
          · rw [← h1]; exact h2.symm
        · obtain ⟨k, hk1, hk2, hk3⟩ := IH (i + 1) store r store' (by omega) h
          exact ⟨k, by omega, hk2, hk3⟩

/-- Shape of a failed loop run: the store is returned unchanged, the
error payload records the store size and the duration computed from the
clock reading of the throwing iteration, and the ceiling is the time
budget (with the configured `maxTime`, which the duration reached) or
the retry budget (with the configured `maxRetries`, the iteration count
having reached it while the duration was still under `maxTime`). -/
theorem genLoop_err_spec {α : Type} (cfg : LoopCfg α) (fn : Nat → α) (clock : Nat → Int)
    (startTime : Int) :
    ∀ fuel i store e store', cfg.maxRetries - i = fuel →
      genLoop cfg fn clock startTime store i = (.error e, store') →
      store' = store ∧ e.storeSize = store.card ∧
      e.duration = clock (e.iterations + 1) - startTime ∧
      i ≤ e.iterations ∧ e.iterations ≤ max i cfg.maxRetries ∧
      ((e.ceiling = .timeBudget cfg.maxTime ∧ cfg.maxTime ≤ e.duration) ∨
       (e.ceiling = .retryBudget cfg.maxRetries ∧ e.iterations = max i cfg.maxRetries ∧
        e.duration < cfg.maxTime)) := by
  intro fuel
  induction fuel with
  | zero =>
    intro i store e store' hfuel h
    rw [genLoop] at h
    dsimp only at h
    split at h
    · rename_i htime
      injection h with h1 h2
      injection h1 with h1
      subst h1 h2
      exact ⟨rfl, rfl, rfl, le_refl i, le_max_left i _, Or.inl ⟨rfl, htime⟩⟩
    · split at h
      · rename_i htime hretry
        injection h with h1 h2
        injection h1 with h1
        subst h1 h2
        exact ⟨rfl, rfl, rfl, le_refl i, le_max_left i _,
          Or.inr ⟨rfl, show i = max i cfg.maxRetries by omega,
            show clock (i + 1) - startTime < cfg.maxTime by omega⟩⟩
      · omega
  | succ n IH =>
    intro i store e store' hfuel h
    rw [genLoop] at h
    dsimp only at h
    split at h
    · rename_i htime
      injection h with h1 h2
      injection h1 with h1
      subst h1 h2
      exact ⟨rfl, rfl, rfl, le_refl i, le_max_left i _, Or.inl ⟨rfl, htime⟩⟩
    · split at h
      · rename_i htime hretry
        injection h with h1 h2
        injection h1 with h1
        subst h1 h2
        exact ⟨rfl, rfl, rfl, le_refl i, le_max_left i _,
          Or.inr ⟨rfl, show i = max i cfg.maxRetries by omega,
            show clock (i + 1) - startTime < cfg.maxTime by omega⟩⟩
      · rename_i htime hretry
        split at h
        · exact absurd h (by simp)
        · obtain ⟨hs, hsz, hd, hle, hub, hcase⟩ := IH (i + 1) store e store' (by omega) h
          refine ⟨hs, hsz, hd, by omega, by omega, ?_⟩
          rcases hcase with hc | ⟨hc1, hc2, hc3⟩
          · exact Or.inl hc
          · exact Or.inr ⟨hc1, by omega, hc3⟩

/-- The loop consults `fn` only at iteration indices below the retry
ceiling: two oracles agreeing there produce identical runs. -/
theorem genLoop_congr_fn {α : Type} (cfg : LoopCfg α) (fn fn' : Nat → α) (clock : Nat → Int)
    (startTime : Int) :
    ∀ fuel i store, cfg.maxRetries - i = fuel →
      (∀ k, i ≤ k → k < cfg.maxRetries → fn' k = fn k) →
      genLoop cfg fn' clock startTime store i = genLoop cfg fn clock startTime store i := by
  intro fuel
  induction fuel with
  | zero =>
    intro i store hfuel hagree
    conv_lhs => rw [genLoop]
    conv_rhs => rw [genLoop]
    dsimp only
    by_cases htime : cfg.maxTime ≤ clock (i + 1) - startTime
    · simp only [if_pos htime]
    · simp only [if_neg htime]
      have hretry : cfg.maxRetries ≤ i := by omega
      simp only [dif_pos hretry]
  | succ n IH =>
    intro i store hfuel hagree
    conv_lhs => rw [genLoop]
    conv_rhs => rw [genLoop]
    dsimp only
    by_cases htime : cfg.maxTime ≤ clock (i + 1) - startTime
    · simp only [if_pos htime]
    · simp only [if_neg htime]
      by_cases hretry : cfg.maxRetries ≤ i
      · simp only [dif_pos hretry]
      · simp only [dif_neg hretry]
        rw [hagree i (le_refl i) (by omega)]
        by_cases hacc : cfg.stringifier (fn i) ∉ store ∧ cfg.stringifier (fn i) ∉ cfg.excludeNorm
        · simp only [if_pos hacc]
        · simp only [if_neg hacc]
          exact IH (i + 1) store (by omega) fun k hk1 hk2 => hagree k (by omega) hk2

/-- When every candidate the oracle can produce is a duplicate (already
in the store or excluded) and the clock stays under the time budget for
every reachable iteration, the loop runs the retry budget down and fails
with the retry-budget error, leaving the store untouched. -/
theorem genLoop_allDup {α : Type} (cfg : LoopCfg α) (fn : Nat → α) (clock : Nat → Int)
    (startTime : Int) :
    ∀ fuel i store, cfg.maxRetries - i = fuel →
      (∀ k, i ≤ k → k < cfg.maxRetries →
        cfg.stringifier (fn k) ∈ store ∨ cfg.stringifier (fn k) ∈ cfg.excludeNorm) →
      (∀ j, i ≤ j → j ≤ max i cfg.maxRetries →
        clock (j + 1) - startTime < cfg.maxTime) →
      genLoop cfg fn clock startTime store i =
        (.error ⟨.retryBudget cfg.maxRetries, store.card,
           clock (max i cfg.maxRetries + 1) - startTime, max i cfg.maxRetries⟩, store) := by
  intro fuel
  induction fuel with
  | zero =>
    intro i store hfuel hdup hclock
    rw [genLoop]
    dsimp only
    split
    · rename_i htime
      exact absurd (hclock i (le_refl i) (le_max_left i _)) (by omega)
    · split
      · rename_i htime hretry
        have hmax : max i cfg.maxRetries = i := by omega
        rw [hmax]
      · omega
  | succ n IH =>
    intro i store hfuel hdup hclock
    rw [genLoop]
    dsimp only
    split
    · rename_i htime
      exact absurd (hclock i (le_refl i) (le_max_left i _)) (by omega)
    · split
      · rename_i htime hretry
        have hmax : max i cfg.maxRetries = i := by omega
        rw [hmax]
      · rename_i htime hretry
        split
        · rename_i hacc
          rcases hdup i (le_refl i) (by omega) with hd | hd
          · exact absurd hd hacc.1
          · exact absurd hd hacc.2
        · have hmax : max (i + 1) cfg.maxRetries = max i cfg.maxRetries := by omega
          rw [IH (i + 1) store (by omega)
            (fun k hk1 hk2 => hdup k (by omega) hk2)
            (fun j hj1 hj2 => hclock j (by omega) (by omega)), hmax]

/-- `genCall` version of `genLoop_ok_spec`. -/
theorem genCall_ok_spec {α : Type} (cfg : LoopCfg α) (fn : Nat → α) (clock : Nat → Int)
    (store : Finset String) (r : α) (store' : Finset String)
    (h : genCall cfg fn clock store = (.ok r, store')) :
    ∃ k, k < cfg.maxRetries ∧ r = fn k ∧
      cfg.stringifier r ∉ store ∧ cfg.stringifier r ∉ cfg.excludeNorm ∧
      store' = insert (cfg.stringifier r) store := by
  obtain ⟨k, _, hk2, hk3, hk4, hk5, hk6⟩ :=
    genLoop_ok_spec cfg fn clock (clock 0) (cfg.maxRetries - 0) 0 store r store' rfl h
  exact ⟨k, hk2, hk3, hk4, hk5, hk6⟩

/-- `genCall` version of `genLoop_err_spec`: a failing call leaves the
store unchanged and its error payload records the store size, the
duration of the throwing iteration, and the ceiling that was hit. -/
theorem genCall_err_spec {α : Type} (cfg : LoopCfg α) (fn : Nat → α) (clock : Nat → Int)
    (store : Finset String) (e : GenError) (store' : Finset String)
    (h : genCall cfg fn clock store = (.error e, store')) :
    store' = store ∧ e.storeSize = store.card ∧
    e.duration = clock (e.iterations + 1) - clock 0 ∧
    e.iterations ≤ cfg.maxRetries ∧
    ((e.ceiling = .timeBudget cfg.maxTime ∧ cfg.maxTime ≤ e.duration) ∨
     (e.ceiling = .retryBudget cfg.maxRetries ∧ e.iterations = cfg.maxRetries ∧
      e.duration < cfg.maxTime)) := by
  obtain ⟨h1, h2, h3, h4, h5, h6⟩ :=
    genLoop_err_spec cfg fn clock (clock 0) (cfg.maxRetries - 0) 0 store e store' rfl h
  rw [Nat.max_eq_right (Nat.zero_le _)] at h5 h6
  exact ⟨h1, h2, h3, h5, h6⟩

/-- Invariants of a successful sequence of calls sharing one store. -/
theorem runCalls_ok_spec {α : Type} (cfg : LoopCfg α) :
    ∀ calls store0 rs store1, runCalls cfg calls store0 = (.ok rs, store1) →
      store0 ⊆ store1 ∧ (∀ r ∈ rs, cfg.stringifier r ∈ store1) ∧
      (∀ r ∈ rs, cfg.stringifier r ∉ store0) ∧
      (∀ r ∈ rs, cfg.stringifier r ∉ cfg.excludeNorm) ∧
      List.Pairwise (fun a b => cfg.stringifier a ≠ cfg.stringifier b) rs := by
  intro calls
  induction calls with
  | nil =>
    intro store0 rs store1 h
    rw [runCalls] at h
    injection h with h1 h2
    injection h1 with h1
    subst h1 h2
    simp
  | cons c rest IH =>
    intro store0 rs store1 h
    rw [runCalls] at h
    rcases hgc : genCall cfg c.1 c.2 store0 with ⟨res, st1⟩
    rw [hgc] at h
    cases res with
    | error e => exact absurd h (by simp)
    | ok r =>
      dsimp only at h
      rcases hrec : runCalls cfg rest st1 with ⟨res2, st2⟩
      rw [hrec] at h
      cases res2 with
      | error e => exact absurd h (by simp)
      | ok rs2 =>
        dsimp only at h
        injection h with h1 h2
        injection h1 with h1
        subst h1 h2
        obtain ⟨k, _, _, hnotin, hnotex, hins⟩ := genCall_ok_spec cfg c.1 c.2 store0 r st1 hgc
        obtain ⟨hsub, hmem, hnot1, hex1, hpw⟩ := IH st1 rs2 st2 hrec
        subst hins
        refine ⟨?_, ?_, ?_, ?_, ?_⟩
        · exact (Finset.subset_insert _ store0).trans hsub
        · intro x hx
          rcases List.mem_cons.mp hx with hx | hx
          · subst hx
            exact hsub (Finset.mem_insert_self _ store0)
          · exact hmem x hx
        · intro x hx
          rcases List.mem_cons.mp hx with hx | hx
          · subst hx
            exact hnotin
          · intro hcontra
            exact hnot1 x hx (Finset.mem_insert_of_mem hcontra)
        · intro x hx
          rcases List.mem_cons.mp hx with hx | hx
          · subst hx
            exact hnotex
          · exact hex1 x hx
        · refine List.pairwise_cons.mpr ⟨?_, hpw⟩
          intro x hx heq
          exact hnot1 x hx (heq ▸ Finset.mem_insert_self _ store0)

/-! ### Claim theorems -/

/-- C1: for every sequence of N successful calls to a wrapped operation
sharing one store (options resolved as `uniqueFactory` resolves them),
the N normalized results are pairwise distinct, and none of them equals
any normalized element of the exclude list given at construction. -/
theorem uniqueness_across_successful_calls {α : Type} (opts : IOptions α) (j : α → String)
    (calls : List ((Nat → α) × (Nat → Int))) (store0 store1 : Finset String) (rs : List α)
    (h : runCalls (mkLoopCfg opts j) calls store0 = (.ok rs, store1)) :
    List.Pairwise
      (fun a b => (mkLoopCfg opts j).stringifier a ≠ (mkLoopCfg opts j).stringifier b) rs ∧
    ∀ r ∈ rs, ∀ x ∈ opts.exclude.getD [],
      (mkLoopCfg opts j).stringifier r ≠ (mkLoopCfg opts j).stringifier x := by
  obtain ⟨_, _, _, hex, hpw⟩ := runCalls_ok_spec (mkLoopCfg opts j) calls store0 rs store1 h
  refine ⟨hpw, ?_⟩
  intro r hr x hx heq
  apply hex r hr
  have hnorm : (mkLoopCfg opts j).excludeNorm
      = (opts.exclude.getD []).map (mkLoopCfg opts j).stringifier := rfl
  rw [hnorm, heq]
  exact List.mem_map_of_mem _ hx

/-- Witness for C1 at a concrete two-call scenario with an exclude list. -/
theorem uniqueness_across_successful_calls_witness :
    List.Pairwise
      (fun a b => (mkLoopCfg (⟨none, none, none, some ["z"], none⟩ : IOptions String) id).stringifier a
        ≠ (mkLoopCfg (⟨none, none, none, some ["z"], none⟩ : IOptions String) id).stringifier b)
      ["a", "b"] ∧
    (mkLoopCfg (⟨none, none, none, some ["z"], none⟩ : IOptions String) id).stringifier "a"
      ≠ (mkLoopCfg (⟨none, none, none, some ["z"], none⟩ : IOptions String) id).stringifier "z" := by
  have h := uniqueness_across_successful_calls
    (⟨none, none, none, some ["z"], none⟩ : IOptions String) id
    [(fun _ => "a", fun _ => 0), (fun _ => "b", fun _ => 0)] ∅
    (insert "b" (insert "a" ∅)) ["a", "b"]
    (by simp [runCalls, genCall, genLoop, mkLoopCfg])
  exact ⟨h.1, h.2 "a" (by simp) "z" (by simp)⟩

/-- C2: in every iteration of the loop, the time-budget check comes
first, then the retry-budget check, then the invocation of the
underlying operation with the uniqueness test: an iteration whose
duration reaches `maxTime` throws the time error whatever `maxRetries`
is; an iteration under the time budget with the retry counter at
`maxRetries` throws the retry error; otherwise the operation is invoked
and the uniqueness test decides. -/
theorem budget_check_order {α : Type} (cfg : LoopCfg α) (fn : Nat → α) (clock : Nat → Int)
    (startTime : Int) (store : Finset String) (i : Nat) :
    (cfg.maxTime ≤ clock (i + 1) - startTime →
      genLoop cfg fn clock startTime store i =
        (.error ⟨.timeBudget cfg.maxTime, store.card, clock (i + 1) - startTime, i⟩, store)) ∧
    (clock (i + 1) - startTime < cfg.maxTime → cfg.maxRetries ≤ i →
      genLoop cfg fn clock startTime store i =
        (.error ⟨.retryBudget cfg.maxRetries, store.card, clock (i + 1) - startTime, i⟩, store)) ∧
    (clock (i + 1) - startTime < cfg.maxTime → i < cfg.maxRetries →
      genLoop cfg fn clock startTime store i =
        if cfg.stringifier (fn i) ∉ store ∧ cfg.stringifier (fn i) ∉ cfg.excludeNorm then
          (.ok (fn i), insert (cfg.stringifier (fn i)) store)
        else
          genLoop cfg fn clock startTime store (i + 1)) := by
  refine ⟨?_, ?_, ?_⟩
  · intro htime
    conv_lhs => rw [genLoop]
    dsimp only
    simp only [if_pos htime]
  · intro htime hretry
    conv_lhs => rw [genLoop]
    dsimp only
    simp only [if_neg (not_le.mpr htime), dif_pos hretry]
  · intro htime hretry
    conv_lhs => rw [genLoop]
    dsimp only
    simp only [if_neg (not_le.mpr htime), dif_neg (not_le.mpr hretry)]

/-- Witness for C2: the time error fires although the retry ceiling is
also already reached (`maxRetries = 0`), and with a time budget left the
retry error fires. -/
theorem budget_check_order_witness :
    (genLoop (⟨0, 0, [], id⟩ : LoopCfg String) (fun _ => "a") (fun _ => 0) 0 ∅ 0 =
      (.error ⟨.timeBudget 0, Finset.card (∅ : Finset String), 0, 0⟩, ∅)) ∧
    (genLoop (⟨0, 50, [], id⟩ : LoopCfg String) (fun _ => "a") (fun _ => 0) 0 ∅ 0 =
      (.error ⟨.retryBudget 0, Finset.card (∅ : Finset String), 0, 0⟩, ∅)) ∧
    (genLoop (⟨1, 50, [], id⟩ : LoopCfg String) (fun _ => "a") (fun _ => 0) 0 ∅ 0 =
      if id "a" ∉ (∅ : Finset String) ∧ id "a" ∉ ([] : List String) then
        (.ok "a", insert (id "a") ∅)
      else
        genLoop (⟨1, 50, [], id⟩ : LoopCfg String) (fun _ => "a") (fun _ => 0) 0 ∅ 1) :=
  ⟨(budget_check_order (⟨0, 0, [], id⟩ : LoopCfg String) (fun _ => "a") (fun _ => 0) 0 ∅ 0).1
      (by norm_num),
   (budget_check_order (⟨0, 50, [], id⟩ : LoopCfg String) (fun _ => "a") (fun _ => 0) 0 ∅ 0).2.1
      (by norm_num) (by norm_num),
   (budget_check_order (⟨1, 50, [], id⟩ : LoopCfg String) (fun _ => "a") (fun _ => 0) 0 ∅ 0).2.2
      (by norm_num) (by norm_num)⟩

/-- C3: with `maxTime = 0` (and a non-decreasing clock), or with
`maxRetries = 0` while the first duration is under `maxTime`, a call
fails at the very first budget checks with the corresponding error,
reporting 0 attempts; the conclusion holds for every invocation oracle
`fn` uniformly, i.e. the underlying operation is never invoked. -/
theorem zero_budget_immediate_failure {α : Type} (cfg : LoopCfg α) (clock : Nat → Int)
    (store : Finset String) (hmono : clock 0 ≤ clock 1) :
    (cfg.maxTime = 0 → ∀ fn : Nat → α, genCall cfg fn clock store =
      (.error ⟨.timeBudget 0, store.card, clock 1 - clock 0, 0⟩, store)) ∧
    (cfg.maxRetries = 0 → clock 1 - clock 0 < cfg.maxTime → ∀ fn : Nat → α,
      genCall cfg fn clock store =
        (.error ⟨.retryBudget 0, store.card, clock 1 - clock 0, 0⟩, store)) := by
  constructor
  · intro htime fn
    rw [genCall]
    conv_lhs => rw [genLoop]
    dsimp only
    simp only [Nat.zero_add]
    rw [htime]
    simp only [if_pos (show (0 : Int) ≤ clock 1 - clock 0 by omega)]
  · intro hretry htime fn
    rw [genCall]
    conv_lhs => rw [genLoop]
    dsimp only
    simp only [Nat.zero_add]
    simp only [if_neg (not_le.mpr htime), dif_pos (show cfg.maxRetries ≤ 0 by omega)]
    rw [hretry]

/-- Witness for C3 at `maxTime = 0` and at `maxRetries = 0`. -/
theorem zero_budget_immediate_failure_witness :
    (genCall (⟨50, 0, [], id⟩ : LoopCfg String) (fun _ => "a") (fun _ => 0) ∅ =
      (.error ⟨.timeBudget 0, Finset.card (∅ : Finset String), 0, 0⟩, ∅)) ∧
    (genCall (⟨0, 50, [], id⟩ : LoopCfg String) (fun _ => "a") (fun _ => 0) ∅ =
      (.error ⟨.retryBudget 0, Finset.card (∅ : Finset String), 0, 0⟩, ∅)) :=
  ⟨(zero_budget_immediate_failure (⟨50, 0, [], id⟩ : LoopCfg String) (fun _ => 0) ∅
      (by norm_num)).1 rfl (fun _ => "a"),
   (zero_budget_immediate_failure (⟨0, 50, [], id⟩ : LoopCfg String) (fun _ => 0) ∅
      (by norm_num)).2 rfl (by norm_num) (fun _ => "a")⟩

/-- C4: with `maxRetries = 3`, a store pre-seeded so that the constant
operation's output is always a duplicate, and a clock that stays under
the time budget, the call fails with the retry-budget error carrying
`attempts = 3` and the store size, the store is returned unchanged, and
the run only ever consults the first 3 invocation results. -/
theorem retry_budget_exhaustion_scenario {α : Type} (opts : IOptions α) (j : α → String)
    (c : α) (clock : Nat → Int) (store : Finset String)
    (hmr : opts.maxRetries = some 3)
    (hdup : (mkLoopCfg opts j).stringifier c ∈ store)
    (hclock : ∀ k, k ≤ 3 → clock (k + 1) - clock 0 < (mkLoopCfg opts j).maxTime) :
    genCall (mkLoopCfg opts j) (fun _ => c) clock store =
      (.error ⟨.retryBudget 3, store.card, clock (3 + 1) - clock 0, 3⟩, store) ∧
    ∀ fn' : Nat → α, (∀ k, k < 3 → fn' k = c) →
      genCall (mkLoopCfg opts j) fn' clock store =
        genCall (mkLoopCfg opts j) (fun _ => c) clock store := by
  have hmr3 : (mkLoopCfg opts j).maxRetries = 3 := by
    simp [mkLoopCfg, hmr]
  constructor
  · rw [genCall]
    have hall := genLoop_allDup (mkLoopCfg opts j) (fun _ => c) clock (clock 0)
      ((mkLoopCfg opts j).maxRetries - 0) 0 store rfl
      (fun k _ _ => Or.inl hdup)
      (fun k _ hk2 => hclock k (by omega))
    rw [hall]
    rw [Nat.max_eq_right (Nat.zero_le _), hmr3]
  · intro fn' hagree
    rw [genCall, genCall]
    exact genLoop_congr_fn (mkLoopCfg opts j) (fun _ => c) fn' clock (clock 0)
      ((mkLoopCfg opts j).maxRetries - 0) 0 store rfl
      (fun k _ hk2 => hagree k (by omega))

/-- Witness for C4: constant operation returning `"a"`, store pre-seeded
with `"a"`, `maxRetries = 3`. -/
theorem retry_budget_exhaustion_scenario_witness :
    genCall (mkLoopCfg (⟨none, some 3, none, none, none⟩ : IOptions String) id)
        (fun _ => "a") (fun _ => 0) (insert "a" ∅) =
      (.error ⟨.retryBudget 3, Finset.card (insert "a" (∅ : Finset String)), 0, 3⟩,
        insert "a" ∅) :=
  (retry_budget_exhaustion_scenario (⟨none, some 3, none, none, none⟩ : IOptions String) id
    "a" (fun _ => 0) (insert "a" ∅) rfl (by simp [mkLoopCfg])
    (fun k _ => by simp [mkLoopCfg])).1

/-- C5: a successful call inserts exactly one element into the store —
the normalized form of the accepted candidate — so the size grows by 1
and the normalized form is a member afterwards, and the raw candidate
(a value produced by some invocation of the operation, not its
normalized form) is returned. -/
theorem store_population_on_success {α : Type} (cfg : LoopCfg α) (fn : Nat → α)
    (clock : Nat → Int) (store : Finset String) (r : α) (store' : Finset String)
    (h : genCall cfg fn clock store = (.ok r, store')) :
    store' = insert (cfg.stringifier r) store ∧
    cfg.stringifier r ∉ store ∧
    store'.card = store.card + 1 ∧
    cfg.stringifier r ∈ store' ∧
    ∃ k, k < cfg.maxRetries ∧ r = fn k := by
  obtain ⟨k, hk1, hk2, hk3, _, hk5⟩ := genCall_ok_spec cfg fn clock store r store' h
  refine ⟨hk5, hk3, ?_, ?_, k, hk1, hk2⟩
  · rw [hk5]
    exact Finset.card_insert_of_not_mem hk3
  · rw [hk5]
    exact Finset.mem_insert_self _ store

/-- Witness for C5 at a concrete successful call. -/
theorem store_population_on_success_witness :
    (insert "a" (∅ : Finset String) = insert (id "a") ∅) ∧
    (id "a" ∉ (∅ : Finset String)) ∧
    ((insert "a" (∅ : Finset String)).card = (∅ : Finset String).card + 1) ∧
    (id "a" ∈ insert "a" (∅ : Finset String)) ∧
    ∃ k, k < (⟨50, 50, [], id⟩ : LoopCfg String).maxRetries ∧ "a" = (fun _ => "a") k :=
  store_population_on_success (⟨50, 50, [], id⟩ : LoopCfg String) (fun _ => "a")
    (fun _ => 0) ∅ "a" (insert "a" ∅) (by simp [genCall, genLoop])

/-- C6: the exclude list is normalized once at factory-construction time
with the configured normalizer (first conjunct, for both factory store
branches); a candidate whose normalized form equals a normalized exclude
entry is never returned (second conjunct) and never inserted into the
store (third conjunct: everything in the store after a call was either
there before or is not excluded). -/
theorem exclusion_precedence {α : Type} (opts : IOptions α) (j : α → String)
    (h0 : Heap) (fn : Nat → α) (clock : Nat → Int) (store : Finset String)
    (out : Except GenError α) (store' : Finset String)
    (h : genCall (mkLoopCfg opts j) fn clock store = (out, store')) :
    ((uniqueFactory opts j h0).1.1).excludeNorm
      = (opts.exclude.getD []).map (opts.stringifier.getD j) ∧
    (∀ r, out = .ok r →
      (mkLoopCfg opts j).stringifier r ∉ (mkLoopCfg opts j).excludeNorm) ∧
    (∀ x ∈ store', x ∈ store ∨ x ∉ (mkLoopCfg opts j).excludeNorm) := by
  refine ⟨?_, ?_, ?_⟩
  · cases hs : opts.store with
    | some sid => simp [uniqueFactory, hs, mkLoopCfg]
    | none => simp [uniqueFactory, hs, mkLoopCfg, Heap.alloc]
  · intro r hout
    subst hout
    obtain ⟨k, _, _, _, hex, _⟩ := genCall_ok_spec (mkLoopCfg opts j) fn clock store r store' h
    exact hex
  · intro x hx
    cases out with
    | ok r =>
      obtain ⟨k, _, _, _, hex, hins⟩ :=
        genCall_ok_spec (mkLoopCfg opts j) fn clock store r store' h
      subst hins
      rcases Finset.mem_insert.mp hx with hx | hx
      · subst hx
        exact Or.inr hex
      · exact Or.inl hx
    | error e =>
      obtain ⟨hs, _⟩ := genCall_err_spec (mkLoopCfg opts j) fn clock store e store' h
      subst hs
      exact Or.inl hx

/-- Witness for C6: exclude list `["a"]` with identity normalizer, the
operation produces `"a"` then `"b"`; the call returns `"b"`, and the
excluded `"a"` was not inserted. -/
theorem exclusion_precedence_witness :
    (((uniqueFactory (⟨none, none, none, some ["a"], none⟩ : IOptions String) id
        initHeap).1.1).excludeNorm
      = ((⟨none, none, none, some ["a"], none⟩ : IOptions String).exclude.getD []).map
          ((⟨none, none, none, some ["a"], none⟩ : IOptions String).stringifier.getD id)) ∧
    ((mkLoopCfg (⟨none, none, none, some ["a"], none⟩ : IOptions String) id).stringifier "b"
      ∉ (mkLoopCfg (⟨none, none, none, some ["a"], none⟩ : IOptions String) id).excludeNorm) ∧
    ("b" ∈ (∅ : Finset String) ∨
      "b" ∉ (mkLoopCfg (⟨none, none, none, some ["a"], none⟩ : IOptions String) id).excludeNorm) := by
  have h := exclusion_precedence (⟨none, none, none, some ["a"], none⟩ : IOptions String) id
    initHeap (fun k => if k = 0 then "a" else "b") (fun _ => 0) ∅
    (.ok "b") (insert "b" ∅)
    (by simp [genCall, genLoop, mkLoopCfg])
  exact ⟨h.1, h.2.1 "b" rfl, h.2.2 "b" (by simp)⟩

/-- The 17th character of an error message is `'i'` for the time-budget
message (`"\n  Exceeded maxTime: ..."`) and `'r'` for the retry-budget
message (`"\n  Exceeded maxTries: ..."`). -/
theorem message_charAt_sixteen (e : GenError) :
    e.message.data[16]? = some (if e.ceiling.isTime then 'i' else 'r') := by
  rcases e with ⟨c, s, d, i⟩
  cases c with
  | timeBudget v =>
    show (createErrorMessage ("Exceeded maxTime: " ++ toString v) s d i).data[16]? = _
    unfold createErrorMessage
    simp only [String.data_append, List.append_assoc]
    rw [List.getElem?_append_right (by decide)]
    have h3 : ("\n  " : String).data.length = 3 := by decide
    rw [h3]
    rw [List.getElem?_append_left (by decide)]
    simp [ErrCeiling.isTime]
  | retryBudget v =>
    show (createErrorMessage ("Exceeded maxTries: " ++ toString v) s d i).data[16]? = _
    unfold createErrorMessage
    simp only [String.data_append, List.append_assoc]
    rw [List.getElem?_append_right (by decide)]
    have h3 : ("\n  " : String).data.length = 3 := by decide
    rw [h3]
    rw [List.getElem?_append_left (by decide)]
    simp [ErrCeiling.isTime]

/-- Error payloads of different kinds always render to different
message strings: the caller can tell them apart. -/
theorem message_distinguishes_kinds (e1 e2 : GenError)
    (hk : e1.ceiling.isTime ≠ e2.ceiling.isTime) :
    e1.message ≠ e2.message := by
  intro heq
  have h1 := message_charAt_sixteen e1
  have h2 := message_charAt_sixteen e2
  rw [heq] at h1
  rw [h1] at h2
  rcases hb1 : e1.ceiling.isTime <;> rcases hb2 : e2.ceiling.isTime <;>
    simp [hb1, hb2] at h2 hk

/-- C7: every budget error carries which ceiling was hit with its
configured value, the store size at the throw, the attempts made, and
the elapsed duration of the throwing iteration; and any two errors of
different kinds have different messages, so the caller can distinguish
the retry-budget error from the time-budget error. -/
theorem budget_error_reporting {α : Type} (cfg : LoopCfg α) (fn : Nat → α)
    (clock : Nat → Int) (store : Finset String) (e : GenError) (store' : Finset String)
    (e2 : GenError)
    (h : genCall cfg fn clock store = (.error e, store'))
    (hk : e.ceiling.isTime ≠ e2.ceiling.isTime) :
    e.storeSize = store.card ∧
    e.duration = clock (e.iterations + 1) - clock 0 ∧
    e.iterations ≤ cfg.maxRetries ∧
    ((e.ceiling = .timeBudget cfg.maxTime ∧ cfg.maxTime ≤ e.duration) ∨
     (e.ceiling = .retryBudget cfg.maxRetries ∧ e.iterations = cfg.maxRetries)) ∧
    e.message ≠ e2.message := by
  obtain ⟨_, hsz, hd, hit, hcase⟩ := genCall_err_spec cfg fn clock store e store' h
  refine ⟨hsz, hd, hit, ?_, message_distinguishes_kinds e e2 hk⟩
  rcases hcase with ⟨hc1, hc2⟩ | ⟨hc1, hc2, _⟩
  · exact Or.inl ⟨hc1, hc2⟩
  · exact Or.inr ⟨hc1, hc2⟩

/-- Witness for C7: a concrete retry-budget failure compared against a
concrete time-budget payload. -/
theorem budget_error_reporting_witness :
    (GenError.storeSize ⟨.retryBudget 0, 0, 0, 0⟩ = Finset.card (∅ : Finset String)) ∧
    (GenError.duration ⟨.retryBudget 0, 0, 0, 0⟩ = 0 - 0) ∧
    (GenError.iterations ⟨.retryBudget 0, 0, 0, 0⟩ ≤ 0) ∧
    ((GenError.ceiling ⟨.retryBudget 0, 0, 0, 0⟩ = .timeBudget 50 ∧ (50 : Int) ≤ 0) ∨
     (GenError.ceiling ⟨.retryBudget 0, 0, 0, 0⟩ = .retryBudget 0 ∧
       GenError.iterations ⟨.retryBudget 0, 0, 0, 0⟩ = 0)) ∧
    GenError.message ⟨.retryBudget 0, 0, 0, 0⟩ ≠ GenError.message ⟨.timeBudget 50, 1, 2, 3⟩ := by
  have h := budget_error_reporting (⟨0, 50, [], id⟩ : LoopCfg String) (fun _ => "a")
    (fun _ => 0) ∅ ⟨.retryBudget 0, 0, 0, 0⟩ ∅ ⟨.timeBudget 50, 1, 2, 3⟩
    (by simp [genCall, genLoop]) (by simp [ErrCeiling.isTime])
  exact h

/-! ### Heap lemmas -/

theorem Heap.read_write_self (h : Heap) (i : StoreId) (s : Finset String)
    (hlt : i < h.stores.length) : (h.write i s).read i = s := by
  simp [Heap.read, Heap.write, List.getD_eq_getElem?_getD, List.getElem?_set_self hlt]

theorem Heap.read_write_ne (h : Heap) (i k : StoreId) (s : Finset String)
    (hne : i ≠ k) : (h.write i s).read k = h.read k := by
  simp [Heap.read, Heap.write, List.getD_eq_getElem?_getD, List.getElem?_set_ne hne]

theorem Heap.length_write (h : Heap) (i : StoreId) (s : Finset String) :
    (h.write i s).stores.length = h.stores.length := by
  simp [Heap.write]

theorem Heap.read_alloc_new (h : Heap) (s : Finset String) :
    ((h.alloc s).2).read (h.alloc s).1 = s := by
  simp [Heap.alloc, Heap.read, List.getD_eq_getElem?_getD, List.getElem?_concat_length]

theorem Heap.read_alloc_old (h : Heap) (s : Finset String) (k : StoreId)
    (hlt : k < h.stores.length) : ((h.alloc s).2).read k = h.read k := by
  simp [Heap.alloc, Heap.read, List.getD_eq_getElem?_getD, List.getElem?_append_left hlt]

/-- Resolution of `uniqueFactory` when no store is supplied: a fresh
empty set is allocated at the end of the heap. -/
theorem uniqueFactory_none_spec {α : Type} (opts : IOptions α) (j : α → String)
    (h : Heap) (hs : opts.store = none) :
    uniqueFactory opts j h =
      ((mkLoopCfg opts j, h.stores.length), ⟨h.stores ++ [∅]⟩) := by
  unfold uniqueFactory
  rw [hs]
  rfl

/-- One-shot `unique` without a supplied store: the retry loop runs on
`GLOBAL_STORE`, writes back to it, and the options object comes back
with its `store` field set to `GLOBAL_STORE`. -/
theorem uniqueRun_store_none_spec {α : Type} (fn : Nat → α) (clock : Nat → Int)
    (opts : IOptions α) (j : α → String) (h : Heap) (hs : opts.store = none) :
    uniqueRun fn clock opts j h =
      ((genCall (mkLoopCfg opts j) fn clock (h.read GLOBAL_STORE)).1,
       h.write GLOBAL_STORE (genCall (mkLoopCfg opts j) fn clock (h.read GLOBAL_STORE)).2,
       { opts with store := some GLOBAL_STORE }) := by
  unfold uniqueRun
  rw [hs]
  rfl

/-- C8: two calls to the one-shot invoker `unique` without an explicit
store share `GLOBAL_STORE` — the first successful result is inserted
there and the second call, observing it, cannot return a value with the
same normalized form — whereas two generators independently constructed
by `uniqueFactory` without an explicit store each receive a newly
created private empty set: distinct ids, both initially empty, and the
second construction leaves the first generator's store untouched. -/
theorem global_vs_local_store_isolation {α : Type} (j : α → String)
    (opts1 opts2 : IOptions α) (h : Heap)
    (fn1 fn2 : Nat → α) (clock1 clock2 : Nat → Int) (r1 r2 : α)
    (hs1 : opts1.store = none) (hs2 : opts2.store = none)
    (hstr : opts1.stringifier = opts2.stringifier)
    (hlen : GLOBAL_STORE < h.stores.length)
    (hok1 : (uniqueRun fn1 clock1 opts1 j h).1 = .ok r1)
    (hok2 : (uniqueRun fn2 clock2 opts2 j ((uniqueRun fn1 clock1 opts1 j h).2.1)).1 = .ok r2) :
    ((uniqueRun fn1 clock1 opts1 j h).2.1).read GLOBAL_STORE
      = insert ((mkLoopCfg opts1 j).stringifier r1) (h.read GLOBAL_STORE) ∧
    (mkLoopCfg opts1 j).stringifier r2 ≠ (mkLoopCfg opts1 j).stringifier r1 ∧
    (uniqueFactory opts1 j h).1.2
      ≠ (uniqueFactory opts2 j
          (callWrapped (uniqueFactory opts1 j h).1.1 (uniqueFactory opts1 j h).1.2
            fn1 clock1 (uniqueFactory opts1 j h).2).2).1.2 ∧
    ((uniqueFactory opts1 j h).2).read (uniqueFactory opts1 j h).1.2 = ∅ ∧
    ((uniqueFactory opts2 j
        (callWrapped (uniqueFactory opts1 j h).1.1 (uniqueFactory opts1 j h).1.2
          fn1 clock1 (uniqueFactory opts1 j h).2).2).2).read
      (uniqueFactory opts2 j
        (callWrapped (uniqueFactory opts1 j h).1.1 (uniqueFactory opts1 j h).1.2
          fn1 clock1 (uniqueFactory opts1 j h).2).2).1.2 = ∅ ∧
    ((uniqueFactory opts2 j
        (callWrapped (uniqueFactory opts1 j h).1.1 (uniqueFactory opts1 j h).1.2
          fn1 clock1 (uniqueFactory opts1 j h).2).2).2).read
      (uniqueFactory opts1 j h).1.2
      = ((callWrapped (uniqueFactory opts1 j h).1.1 (uniqueFactory opts1 j h).1.2
          fn1 clock1 (uniqueFactory opts1 j h).2).2).read (uniqueFactory opts1 j h).1.2 := by
  rw [uniqueRun_store_none_spec fn1 clock1 opts1 j h hs1] at hok1 hok2 ⊢
  dsimp only at hok1 hok2 ⊢
  rcases hp1 : genCall (mkLoopCfg opts1 j) fn1 clock1 (h.read GLOBAL_STORE) with ⟨res1, st1⟩
  rw [hp1] at hok1 hok2
  dsimp only at hok1 hok2 ⊢
  subst hok1
  obtain ⟨_, _, _, hnot1, _, hins1⟩ :=
    genCall_ok_spec (mkLoopCfg opts1 j) fn1 clock1 (h.read GLOBAL_STORE) r1 st1 hp1
  have hread1 : (h.write GLOBAL_STORE st1).read GLOBAL_STORE = st1 :=
    Heap.read_write_self h GLOBAL_STORE st1 hlen
  refine ⟨by rw [hread1, hins1], ?_, ?_, ?_, ?_, ?_⟩
  · -- the second one-shot call sees the first result in GLOBAL_STORE
    rw [uniqueRun_store_none_spec fn2 clock2 opts2 j (h.write GLOBAL_STORE st1) hs2] at hok2
    dsimp only at hok2
    rcases hp2 : genCall (mkLoopCfg opts2 j) fn2 clock2
        ((h.write GLOBAL_STORE st1).read GLOBAL_STORE) with ⟨res2, st2⟩
    rw [hp2] at hok2
    dsimp only at hok2
    subst hok2
    obtain ⟨_, _, _, hnot2, _, _⟩ :=
      genCall_ok_spec (mkLoopCfg opts2 j) fn2 clock2
        ((h.write GLOBAL_STORE st1).read GLOBAL_STORE) r2 st2 hp2
    rw [hread1, hins1] at hnot2
    have hsame : (mkLoopCfg opts1 j).stringifier = (mkLoopCfg opts2 j).stringifier := by
      simp [mkLoopCfg, hstr]
    rw [hsame]
    intro heq
    apply hnot2
    rw [heq, ← hsame]
    exact Finset.mem_insert_self _ _
  · -- distinct store ids for two store-less factories
    rw [uniqueFactory_none_spec opts1 j h hs1]
    dsimp only
    rw [uniqueFactory_none_spec opts2 j _ hs2]
    dsimp only [callWrapped]
    rw [Heap.length_write]
    show h.stores.length ≠ (h.stores ++ [∅]).length
    simp only [List.length_append, List.length_singleton]
    omega
  · -- the first factory's fresh store is empty
    rw [uniqueFactory_none_spec opts1 j h hs1]
    exact Heap.read_alloc_new h ∅
  · -- the second factory's fresh store is empty
    rw [uniqueFactory_none_spec opts1 j h hs1]
    dsimp only
    rw [uniqueFactory_none_spec opts2 j _ hs2]
    dsimp only
    exact Heap.read_alloc_new _ ∅
  · -- constructing the second factory does not touch the first store
    rw [uniqueFactory_none_spec opts1 j h hs1]
    dsimp only
    rw [uniqueFactory_none_spec opts2 j _ hs2]
    dsimp only
    refine Heap.read_alloc_old _ ∅ h.stores.length ?_
    dsimp only [callWrapped]
    rw [Heap.length_write]
    show h.stores.length < (h.stores ++ [∅]).length
    simp only [List.length_append, List.length_singleton]
    omega

/-- Witness for C8: two store-less one-shot calls on the initial heap —
the first accepts `"a"` into `GLOBAL_STORE`, the second call (whose
operation produces `"a"` then `"b"`) observes it and returns `"b"`. -/
theorem global_vs_local_store_isolation_witness :
    ((uniqueRun (fun _ => "a") (fun _ => 0) ({} : IOptions String) id initHeap).2.1).read
        GLOBAL_STORE
      = insert ((mkLoopCfg ({} : IOptions String) id).stringifier "a")
          (initHeap.read GLOBAL_STORE) ∧
    (mkLoopCfg ({} : IOptions String) id).stringifier "b"
      ≠ (mkLoopCfg ({} : IOptions String) id).stringifier "a" := by
  have h := global_vs_local_store_isolation id ({} : IOptions String) ({} : IOptions String)
    initHeap (fun _ => "a") (fun k => if k = 0 then "a" else "b")
    (fun _ => 0) (fun _ => 0) "a" "b" rfl rfl rfl (by decide)
    (by simp [uniqueRun_store_none_spec, genCall, genLoop, mkLoopCfg, Heap.read, initHeap,
      GLOBAL_STORE])
    (by simp [uniqueRun_store_none_spec, genCall, genLoop, mkLoopCfg, Heap.read, Heap.write,
      initHeap, GLOBAL_STORE])
  exact ⟨h.1, h.2.1⟩

/-- C9: `unique(fn, args, options)` returns the same result and performs
the same store mutations as constructing the generator with
`uniqueFactory(fn, options)` and invoking it once, except that a missing
`options.store` resolves to the shared `GLOBAL_STORE` instead of a fresh
private set — the behaviour `uniqueSpec` transcribes from the spec. -/
theorem unique_refines_factory {α : Type} (fn : Nat → α) (clock : Nat → Int)
    (opts : IOptions α) (j : α → String) (h : Heap) :
    (uniqueRun fn clock opts j h).1 = (uniqueSpec fn clock opts j h).1 ∧
    (uniqueRun fn clock opts j h).2.1 = (uniqueSpec fn clock opts j h).2 := by
  rcases opts with ⟨st, mr, mt, ex, sf⟩
  cases st with
  | none => exact ⟨rfl, rfl⟩
  | some sid => exact ⟨rfl, rfl⟩

/-- C10: `unique` writes the resolved store back into the caller's
options object through `Object.assign`: afterwards the object's `store`
field holds the caller's store if one was supplied and `GLOBAL_STORE`
otherwise, so a store-less options object comes back changed. -/
theorem unique_mutates_options {α : Type} (fn : Nat → α) (clock : Nat → Int)
    (opts : IOptions α) (j : α → String) (h : Heap) :
    ((uniqueRun fn clock opts j h).2.2).store = some (opts.store.getD GLOBAL_STORE) ∧
    (opts.store = none →
      ((uniqueRun fn clock opts j h).2.2).store = some GLOBAL_STORE ∧
      (uniqueRun fn clock opts j h).2.2 ≠ opts) := by
  have h1 : ((uniqueRun fn clock opts j h).2.2).store = some (opts.store.getD GLOBAL_STORE) :=
    rfl
  refine ⟨h1, fun hs => ⟨by rw [h1, hs]; rfl, fun hcon => ?_⟩⟩
  have h2 : ((uniqueRun fn clock opts j h).2.2).store = opts.store := by rw [hcon]
  rw [h1, hs] at h2
  simp at h2

/-- Witness for C10: a store-less options object passed to `unique`
comes back with `store = some GLOBAL_STORE`, hence differs from what the
caller passed. -/
theorem unique_mutates_options_witness :
    ((uniqueRun (fun _ => "a") (fun _ => 0) ({} : IOptions String) id initHeap).2.2).store
      = some (({} : IOptions String).store.getD GLOBAL_STORE) ∧
    ((uniqueRun (fun _ => "a") (fun _ => 0) ({} : IOptions String) id initHeap).2.2).store
      = some GLOBAL_STORE ∧
    (uniqueRun (fun _ => "a") (fun _ => 0) ({} : IOptions String) id initHeap).2.2
      ≠ ({} : IOptions String) :=
  ⟨(unique_mutates_options (fun _ => "a") (fun _ => 0) ({} : IOptions String) id initHeap).1,
   (unique_mutates_options (fun _ => "a") (fun _ => 0) ({} : IOptions String) id initHeap).2 rfl⟩

end Unique
